import Mathlib

/-!
Shallow embedding of the webupload file-ingestion pipeline
(`api/src/services/fileProcessor.ts`, `api/src/services/fileManager.ts`,
`api/src/queue/fileProcessing.ts`, `api/src/worker.ts`).

Database tables become lists of records; each SQL statement of the source
becomes the corresponding pure operation (`find?` for `SELECT ... LIMIT 1`,
`map` with an id guard for `UPDATE ... WHERE id = $n`, append for `INSERT`).
External collaborators (S3 download, sha-256, MIME sniffing, ClamAV) are
injected as functions in an environment record, fallible ones through
`Except`.
-/

namespace WebUpload

/-- The closed status enum of the `files` table. -/
inductive FileStatus
  | pending
  | scanning
  | clean
  | quarantined
  | rejected
  deriving DecidableEq, Repr

/-- `statusName` renders a status the way the source interpolates it into
error messages. -/
def statusName : FileStatus → String
  | FileStatus.pending => "pending"
  | FileStatus.scanning => "scanning"
  | FileStatus.clean => "clean"
  | FileStatus.quarantined => "quarantined"
  | FileStatus.rejected => "rejected"

/-- A row of the `files` table (fileManager.ts, interface File). -/
structure FileRec where
  id : Nat
  owner_id : Nat
  original_name : String
  storage_key : Nat
  size_bytes : Nat
  sha256 : Option Nat := none
  detected_mime : Option String := none
  status : FileStatus := FileStatus.pending
  reason : Option String := none
  updated_at : Nat := 0
  scanned_at : Option Nat := none
  deriving DecidableEq, Repr

/-- A row of the `file_shares` table. -/
structure ShareRec where
  id : Nat
  file_id : Nat
  created_by : Nat
  share_token : Nat
  expires_at : Nat
  one_time_use : Bool
  used_at : Option Nat := none
  deriving DecidableEq, Repr

/-- User roles. -/
inductive Role
  | user
  | admin
  deriving DecidableEq, Repr

/-- The fields of a `users` row consulted by the pipeline. -/
structure UserRec where
  id : Nat
  storage_quota_bytes : Nat
  files_quota : Nat
  role : Role := Role.user
  deriving DecidableEq, Repr

/-- A BullMQ job as enqueued by `completeFileUpload` (`attempts: 3`). -/
structure JobRec where
  fileId : Nat
  attempts : Nat
  deriving DecidableEq, Repr

/-- `SELECT ... FROM files WHERE id = $1` row predicate. -/
def byId (fid : Nat) : FileRec → Bool := fun f => decide (f.id = fid)

/-- `UPDATE files SET ... WHERE id = $n`: apply `g` to every row whose id
matches. -/
def updateFile (files : List FileRec) (fid : Nat) (g : FileRec → FileRec) :
    List FileRec :=
  files.map (fun f => if byId fid f then g f else f)

/-- Status of the row `SELECT * FROM files WHERE id = $1` would return. -/
def statusOf (files : List FileRec) (fid : Nat) : Option FileStatus :=
  (files.find? (byId fid)).map (fun f => f.status)

/-- Reason column of the selected row. -/
def reasonOf (files : List FileRec) (fid : Nat) : Option (Option String) :=
  (files.find? (byId fid)).map (fun f => f.reason)

/-- sha256 column of the selected row. -/
def sha256Of (files : List FileRec) (fid : Nat) : Option (Option Nat) :=
  (files.find? (byId fid)).map (fun f => f.sha256)

/-- detected_mime column of the selected row. -/
def mimeOf (files : List FileRec) (fid : Nat) : Option (Option String) :=
  (files.find? (byId fid)).map (fun f => f.detected_mime)

/-- scanned_at column of the selected row. -/
def scannedAtOf (files : List FileRec) (fid : Nat) : Option (Option Nat) :=
  (files.find? (byId fid)).map (fun f => f.scanned_at)

/-- Result of `clamscan.scanBuffer`. -/
structure ScanResult where
  isInfected : Bool
  viruses : List String
  deriving DecidableEq, Repr

/-- External collaborators and configuration injected into `processFile`:
S3 download, sha-256, `fileTypeFromBuffer` magic-byte sniffing,
`mime.lookup` extension guessing, the ClamAV scan (initialization and scan
failures both surface as `Except.error`), the deduplication flag, and the
database clock `NOW()`. File contents are byte lists. -/
structure ProcEnv where
  download : Nat → Except String (List Nat)
  sha256 : List Nat → Nat
  sniffMime : List Nat → Option String
  mimeLookup : String → Option String
  scan : List Nat → Except String ScanResult
  enableFileDeduplication : Bool
  now : Nat

/-- Which side effects a `processFile` run performed (instrumentation for
the dedup short-circuit property; meaningful on the success path). -/
structure Effects where
  sniffInvoked : Bool := false
  scannerInvoked : Bool := false
  thumbnailAttempted : Bool := false
  deriving DecidableEq, Repr

/-- `Array.prototype.join(", ")` as used for the virus signature list. -/
def joinComma : List String → String
  | [] => ""
  | [s] => s
  | s :: rest => s ++ ", " ++ joinComma rest

/-- The `dangerousFileTypes` denylist, verbatim from fileProcessor.ts
(including its duplicated `application/x-msdownload` entry). -/
def dangerousFileTypes : List String :=
  [ "application/x-msdownload"
  , "application/x-executable"
  , "application/x-dosexec"
  , "application/x-msdos-program"
  , "application/x-msdos-windows"
  , "application/bat"
  , "application/x-bat"
  , "application/x-msdownload"
  , "application/javascript"
  , "text/javascript"
  , "application/html"
  , "text/html"
  , "application/wasm"
  , "application/jar"
  , "application/java-archive"
  , "image/svg+xml" ]

/-- `fileTypeResult?.mime || mime.lookup(file.original_name) ||
'application/octet-stream'`. -/
def detectMime (sniffed : Option String) (extGuess : Option String) : String :=
  match sniffed with
  | some m => m
  | none =>
    match extGuess with
    | some m => m
    | none => "application/octet-stream"

/-- The first statement of `processFile` (also the status flip inside
`completeFileUpload`): `UPDATE files SET status = 'scanning',
updated_at = NOW() WHERE id = $2`. -/
def markScanning (files : List FileRec) (fid now : Nat) : List FileRec :=
  updateFile files fid (fun f =>
    { f with status := FileStatus.scanning, updated_at := now })

/-- The row update of the dedup short-circuit: `UPDATE files SET
sha256 = $1, status = 'clean', updated_at = NOW(), scanned_at = NOW()
WHERE id = $3`. -/
def dedupUpdate (h now : Nat) (f : FileRec) : FileRec :=
  { f with sha256 := some h, status := FileStatus.clean,
           updated_at := now, scanned_at := some now }

/-- The classification step of `processFile`: the scanner verdict is
checked first, the MIME denylist second, otherwise the file is clean. -/
def classify (scanResult : ScanResult) (detectedMime : String) :
    FileStatus × Option String :=
  if scanResult.isInfected = true then
    (FileStatus.quarantined,
     some ("Virus detected: " ++ joinComma scanResult.viruses))
  else if detectedMime ∈ dangerousFileTypes then
    (FileStatus.quarantined,
     some ("Potentially dangerous file type detected: " ++ detectedMime))
  else (FileStatus.clean, none)

/-- The final commit: `UPDATE files SET sha256 = $1, detected_mime = $2,
status = $3, reason = $4, updated_at = NOW(), scanned_at = NOW()
WHERE id = $5`. -/
def commitUpdate (h : Nat) (dm : String) (sr : FileStatus × Option String)
    (now : Nat) (f : FileRec) : FileRec :=
  { f with sha256 := some h, detected_mime := some dm,
           status := sr.1, reason := sr.2,
           updated_at := now, scanned_at := some now }

/-- The catch-block update: `UPDATE files SET status = 'rejected',
reason = 'Processing error: ...', updated_at = NOW(), scanned_at = NOW()
WHERE id = $3`. -/
def rejectUpdate (e : String) (now : Nat) (f : FileRec) : FileRec :=
  { f with status := FileStatus.rejected,
           reason := some ("Processing error: " ++ e),
           updated_at := now, scanned_at := some now }

/-- The body of `processFile`'s try block after the initial status update:
fetch the row, download the blob, hash it, run the dedup short-circuit,
sniff the MIME type, scan, classify, and commit the terminal update.
Thumbnail generation touches only S3 and swallows its own errors, so it is
tracked in `Effects` and has no database effect. -/
def processBody (env : ProcEnv) (files : List FileRec) (fid : Nat) :
    Except String (List FileRec × Effects) :=
  match files.find? (byId fid) with
  | none => Except.error "File not found"
  | some file =>
    match env.download file.storage_key with
    | Except.error e => Except.error e
    | Except.ok buf =>
      let h := env.sha256 buf
      if env.enableFileDeduplication = true ∧
          ∃ f ∈ files, f.sha256 = some h ∧ f.id ≠ fid ∧
            f.status = FileStatus.clean then
        Except.ok (updateFile files fid (dedupUpdate h env.now), {})
      else
        let detectedMime :=
          detectMime (env.sniffMime buf) (env.mimeLookup file.original_name)
        match env.scan buf with
        | Except.error e => Except.error e
        | Except.ok scanResult =>
          let sr := classify scanResult detectedMime
          Except.ok
            (updateFile files fid (commitUpdate h detectedMime sr env.now),
             { sniffInvoked := true, scannerInvoked := true,
               thumbnailAttempted :=
                 sr.1 == FileStatus.clean &&
                   detectedMime.startsWith "image/" })

/-- `processFile(fileId)` from fileProcessor.ts: unconditionally set the
row to `scanning`, run the body, and on any thrown error run the catch
block update before re-throwing. -/
def processFile (env : ProcEnv) (files : List FileRec) (fid : Nat) :
    List FileRec × Except String Unit × Effects :=
  let files1 := markScanning files fid env.now
  match processBody env files1 fid with
  | Except.ok (files2, eff) => (files2, Except.ok (), eff)
  | Except.error e =>
    (updateFile files1 fid (rejectUpdate e env.now), Except.error e, {})

/-! ### Helper lemmas about row lookup and update -/

/-- Looking up the updated id after `updateFile` returns the updated row. -/
theorem updateFile_find_self (files : List FileRec) (fid : Nat)
    (g : FileRec → FileRec) (hg : ∀ f, (g f).id = f.id) :
    (updateFile files fid g).find? (byId fid) =
      (files.find? (byId fid)).map g := by
  unfold updateFile
  rw [List.find?_map]
  have hp : (byId fid ∘ fun f => if byId fid f then g f else f) = byId fid := by
    funext f
    by_cases h : f.id = fid
    · simp [byId, h, hg]
    · simp [byId, h]
  rw [hp]
  cases hf : files.find? (byId fid) with
  | none => rfl
  | some f =>
    have hpf := List.find?_some hf
    have hid : f.id = fid := by simpa [byId] using hpf
    simp [byId, hid]

/-- Projecting any column of the looked-up row after `updateFile`. -/
theorem updateFile_proj {α : Type} (files : List FileRec) (fid : Nat)
    (g : FileRec → FileRec) (hg : ∀ f, (g f).id = f.id)
    (proj : FileRec → α) :
    ((updateFile files fid g).find? (byId fid)).map proj =
      (files.find? (byId fid)).map (fun f => proj (g f)) := by
  rw [updateFile_find_self files fid g hg, Option.map_map]
  rfl

/-- `markScanning` rewrites the looked-up row to `scanning`. -/
theorem find_markScanning (files : List FileRec) (fid t : Nat) :
    (markScanning files fid t).find? (byId fid) =
      (files.find? (byId fid)).map (fun f =>
        { f with status := FileStatus.scanning, updated_at := t }) :=
  updateFile_find_self files fid _ (fun _ => rfl)

/-- The dedup existence check reads the same answer before and after the
initial `scanning` flip, because it excludes the current id and the flip
only touches rows with the current id. -/
theorem dedup_exists_markScanning (files : List FileRec) (fid t h : Nat) :
    (∃ f ∈ markScanning files fid t,
        f.sha256 = some h ∧ f.id ≠ fid ∧ f.status = FileStatus.clean) ↔
      (∃ f ∈ files,
        f.sha256 = some h ∧ f.id ≠ fid ∧ f.status = FileStatus.clean) := by
  unfold markScanning updateFile
  constructor
  · rintro ⟨f, hmem, h1, h2, h3⟩
    obtain ⟨x, hx, hfx⟩ := List.mem_map.mp hmem
    by_cases hid : x.id = fid
    · exfalso
      apply h2
      rw [← hfx]
      simp [byId, hid]
    · refine ⟨x, hx, ?_⟩
      have hxf : x = f := by simpa [byId, hid] using hfx
      rw [hxf]
      exact ⟨h1, h2, h3⟩
  · rintro ⟨f, hmem, h1, h2, h3⟩
    refine ⟨f, List.mem_map.mpr ⟨f, hmem, ?_⟩, h1, h2, h3⟩
    simp [byId, h2]

/-- Row projection after each named update, for the looked-up id. -/
theorem find_updateFile_dedup (files : List FileRec) (fid h now : Nat) :
    (updateFile files fid (dedupUpdate h now)).find? (byId fid) =
      (files.find? (byId fid)).map (dedupUpdate h now) :=
  updateFile_find_self files fid (dedupUpdate h now) (fun _ => rfl)

/-- Lookup after the final classification commit. -/
theorem find_updateFile_commit (files : List FileRec) (fid h : Nat)
    (dm : String) (sr : FileStatus × Option String) (now : Nat) :
    (updateFile files fid (commitUpdate h dm sr now)).find? (byId fid) =
      (files.find? (byId fid)).map (commitUpdate h dm sr now) :=
  updateFile_find_self files fid (commitUpdate h dm sr now) (fun _ => rfl)

/-- Lookup after the catch-block rejected update. -/
theorem find_updateFile_reject (files : List FileRec) (fid : Nat)
    (e : String) (now : Nat) :
    (updateFile files fid (rejectUpdate e now)).find? (byId fid) =
      (files.find? (byId fid)).map (rejectUpdate e now) :=
  updateFile_find_self files fid (rejectUpdate e now) (fun _ => rfl)

/-- Characterization of a run whose blob download throws. -/
theorem processFile_download_error (env : ProcEnv) (files : List FileRec)
    (fid : Nat) (file : FileRec) (e : String)
    (hfind : files.find? (byId fid) = some file)
    (hdl : env.download file.storage_key = Except.error e) :
    processFile env files fid =
      (updateFile (markScanning files fid env.now) fid
        (rejectUpdate e env.now),
       Except.error e, {}) := by
  have hfind1 : (markScanning files fid env.now).find? (byId fid) =
      some { file with status := FileStatus.scanning, updated_at := env.now } := by
    rw [find_markScanning, hfind]
    rfl
  simp only [processFile, processBody, hfind1, hdl]

/-- Characterization of a dedup short-circuit run. -/
theorem processFile_dedup_run (env : ProcEnv) (files : List FileRec)
    (fid : Nat) (file : FileRec) (buf : List Nat)
    (hfind : files.find? (byId fid) = some file)
    (hdl : env.download file.storage_key = Except.ok buf)
    (hen : env.enableFileDeduplication = true)
    (hdup : ∃ f ∈ files, f.sha256 = some (env.sha256 buf) ∧ f.id ≠ fid ∧
        f.status = FileStatus.clean) :
    processFile env files fid =
      (updateFile (markScanning files fid env.now) fid
        (dedupUpdate (env.sha256 buf) env.now),
       Except.ok (), {}) := by
  have hfind1 : (markScanning files fid env.now).find? (byId fid) =
      some { file with status := FileStatus.scanning, updated_at := env.now } := by
    rw [find_markScanning, hfind]
    rfl
  have hcond : env.enableFileDeduplication = true ∧
      ∃ f ∈ markScanning files fid env.now,
        f.sha256 = some (env.sha256 buf) ∧ f.id ≠ fid ∧
          f.status = FileStatus.clean :=
    ⟨hen, (dedup_exists_markScanning files fid env.now (env.sha256 buf)).mpr hdup⟩
  simp only [processFile, processBody, hfind1, hdl]
  rw [if_pos hcond]

/-- Characterization of a full (non-dedup) run that reaches the final
classification commit. -/
theorem processFile_full_run (env : ProcEnv) (files : List FileRec)
    (fid : Nat) (file : FileRec) (buf : List Nat) (sr : ScanResult)
    (hfind : files.find? (byId fid) = some file)
    (hdl : env.download file.storage_key = Except.ok buf)
    (hnodup : ¬(env.enableFileDeduplication = true ∧
        ∃ f ∈ files, f.sha256 = some (env.sha256 buf) ∧ f.id ≠ fid ∧
          f.status = FileStatus.clean))
    (hscan : env.scan buf = Except.ok sr) :
    processFile env files fid =
      (updateFile (markScanning files fid env.now) fid
        (commitUpdate (env.sha256 buf)
          (detectMime (env.sniffMime buf) (env.mimeLookup file.original_name))
          (classify sr (detectMime (env.sniffMime buf)
            (env.mimeLookup file.original_name)))
          env.now),
       Except.ok (),
       { sniffInvoked := true, scannerInvoked := true,
         thumbnailAttempted :=
           (classify sr (detectMime (env.sniffMime buf)
              (env.mimeLookup file.original_name))).1 == FileStatus.clean &&
             (detectMime (env.sniffMime buf)
               (env.mimeLookup file.original_name)).startsWith "image/" }) := by
  have hfind1 : (markScanning files fid env.now).find? (byId fid) =
      some { file with status := FileStatus.scanning, updated_at := env.now } := by
    rw [find_markScanning, hfind]
    rfl
  have hcond : ¬(env.enableFileDeduplication = true ∧
      ∃ f ∈ markScanning files fid env.now,
        f.sha256 = some (env.sha256 buf) ∧ f.id ≠ fid ∧
          f.status = FileStatus.clean) := by
    rintro ⟨he, hex⟩
    exact hnodup ⟨he,
      (dedup_exists_markScanning files fid env.now (env.sha256 buf)).mp hex⟩
  simp only [processFile, processBody, hfind1, hdl]
  rw [if_neg hcond]
  simp only [hscan]

/-! ### The BullMQ retry loop

`completeFileUpload` enqueues the job with `attempts: 3`; the worker
re-runs `processFile` on a thrown error until the attempts are spent
(worker.ts / queue/fileProcessing.ts). Each list entry supplies the
environment of one attempt (so a later attempt may see a different clock
or a recovered external service); the trace records the database after
each attempt. -/
def runJobAttempts (envs : List ProcEnv) (files : List FileRec) (fid : Nat) :
    List (List FileRec) × Bool :=
  match envs with
  | [] => ([], false)
  | env :: rest =>
    let r := processFile env files fid
    match r.2.1 with
    | Except.ok _ => ([r.1], true)
    | Except.error _ =>
      let t := runJobAttempts rest r.1 fid
      (r.1 :: t.1, t.2)

/-! ### fileManager.ts operations -/

/-- Used storage: `SELECT COALESCE(SUM(size_bytes), 0) FROM files WHERE
owner_id = $1 AND status != 'rejected'`. -/
def usedStorage (files : List FileRec) (userId : Nat) : Nat :=
  ((files.filter (fun f =>
      decide (f.owner_id = userId ∧ f.status ≠ FileStatus.rejected))).map
    (fun f => f.size_bytes)).sum

/-- Active file count: `SELECT COUNT(*) FROM files WHERE owner_id = $1 AND
status != 'rejected'`. -/
def activeFileCount (files : List FileRec) (userId : Nat) : Nat :=
  (files.filter (fun f =>
    decide (f.owner_id = userId ∧ f.status ≠ FileStatus.rejected))).length

/-- `initiateFileUpload(userId, fileName, fileSize, contentType)`:
size cap, quota ledger checks, then insert of a `pending` row. The fresh
id, storage key and clock are passed in (the source draws them from
`randomUUID`/`Date`). Returns the new table and the new file id. -/
def initiateFileUpload (users : List UserRec) (files : List FileRec)
    (userId : Nat) (fileName : String) (fileSize : Nat)
    (maxFileSize newId newKey now : Nat) :
    Except String (List FileRec × Nat) :=
  if fileSize > maxFileSize then
    Except.error "File size exceeds the maximum allowed size"
  else
    match users.find? (fun u => u.id == userId) with
    | none => Except.error "User not found"
    | some user =>
      if usedStorage files userId + fileSize > user.storage_quota_bytes then
        Except.error "Storage quota exceeded"
      else if user.files_quota ≤ activeFileCount files userId then
        Except.error "Files quota exceeded"
      else
        Except.ok
          (files ++ [{ id := newId, owner_id := userId,
                       original_name := fileName, storage_key := newKey,
                       size_bytes := fileSize, status := FileStatus.pending,
                       updated_at := now }],
           newId)

/-- `completeFileUpload(fileId, userId)`: select the row by id and owner
(no status condition), flip it to `scanning`, and enqueue one processing
job with `attempts: 3`; returns the row as read before the flip. -/
def completeFileUpload (files : List FileRec) (jobs : List JobRec)
    (fileId userId now : Nat) :
    Except String (List FileRec × List JobRec × FileRec) :=
  match files.find? (fun f => decide (f.id = fileId ∧ f.owner_id = userId)) with
  | none => Except.error "File not found or not owned by user"
  | some file =>
    Except.ok (markScanning files fileId now,
               jobs ++ [{ fileId := fileId, attempts := 3 }], file)

/-- `canAccessFile(fileId, userId, requireOwnership)`: the admin branch
runs only when `requireOwnership` is false; otherwise plain ownership. -/
def canAccessFile (users : List UserRec) (files : List FileRec)
    (fileId userId : Nat) (requireOwnership : Bool) : Bool :=
  (if requireOwnership = false then
     match users.find? (fun u => u.id == userId) with
     | some u => u.role == Role.admin
     | none => false
   else false) ||
  files.any (fun f => decide (f.id = fileId ∧ f.owner_id = userId))

/-- `createFileShare(fileId, userId, expiresInMinutes, oneTimeUse)`:
access check with ownership required, `clean`-status check, then insert of
a share row expiring `expiresInMinutes` minutes from now (timestamps are
in minutes). Returns the new share table and the token. -/
def createFileShare (users : List UserRec) (files : List FileRec)
    (shares : List ShareRec) (fileId userId expiresInMinutes : Nat)
    (oneTimeUse : Bool) (now newShareId token : Nat) :
    Except String (List ShareRec × Nat) :=
  if canAccessFile users files fileId userId true = false then
    Except.error "File not found or access denied"
  else
    match files.find? (byId fileId) with
    | none => Except.error "File not found or access denied"
    | some file =>
      if file.status ≠ FileStatus.clean then
        Except.error ("Cannot share file with status: " ++
          statusName file.status)
      else
        Except.ok
          (shares ++ [{ id := newShareId, file_id := fileId,
                        created_by := userId, share_token := token,
                        expires_at := now + expiresInMinutes,
                        one_time_use := oneTimeUse, used_at := none }],
           token)

/-- `generateFileDownloadUrl(fileId, userId)`: the access SQL is
`WHERE id = $1 AND (owner_id = $2 OR EXISTS (SELECT 1 FROM file_shares
WHERE file_id = $1 AND expires_at > NOW()))`; then the status must be
`clean`. Returns the row whose download URL is issued. -/
def generateFileDownloadUrl (files : List FileRec) (shares : List ShareRec)
    (fileId userId now : Nat) : Except String FileRec :=
  match files.find? (fun f =>
      decide (f.id = fileId ∧ (f.owner_id = userId ∨
        ∃ s ∈ shares, s.file_id = fileId ∧ now < s.expires_at))) with
  | none => Except.error "File not found or access denied"
  | some file =>
    if file.status ≠ FileStatus.clean then
      Except.error ("Cannot download file with status: " ++
        statusName file.status)
    else
      Except.ok file

/-- The two SELECTs of `getFileByShareToken`: the share row (token match,
unexpired, and not yet consumed if one-time) and then its `clean` file. -/
def resolveRead (files : List FileRec) (shares : List ShareRec)
    (token now : Nat) : Option (FileRec × ShareRec) :=
  match shares.find? (fun s =>
      decide (s.share_token = token ∧ now < s.expires_at ∧
        (s.one_time_use = false ∨ s.used_at = none))) with
  | none => none
  | some share =>
    match files.find? (fun f =>
        decide (f.id = share.file_id ∧ f.status = FileStatus.clean)) with
    | none => none
    | some file => some (file, share)

/-- `UPDATE file_shares SET used_at = NOW() WHERE id = $1` — note: not
conditioned on `used_at IS NULL`. -/
def markShareUsed (shares : List ShareRec) (sid now : Nat) : List ShareRec :=
  shares.map (fun s => if s.id == sid then { s with used_at := some now } else s)

/-- `getFileByShareToken(shareToken)`: read, then (for one-time shares)
mark consumed with a separate update. Returns the share table after the
call and the resolution result. -/
def getFileByShareToken (files : List FileRec) (shares : List ShareRec)
    (token now : Nat) : List ShareRec × Option (FileRec × ShareRec) :=
  match resolveRead files shares token now with
  | none => (shares, none)
  | some (file, share) =>
    if share.one_time_use then
      (markShareUsed shares share.id now, some (file, share))
    else
      (shares, some (file, share))

/-! ### Interleaving model for two concurrent share resolutions

Each `getFileByShareToken` call performs two database operations: the read
(both SELECTs, which the database serializes as one snapshot here since
they touch disjoint tables and the second is read-only on `files`) and the
`used_at` update. A call is a two-step state machine; a schedule
interleaves the steps of two calls on the same token. -/
structure CallState where
  pc : Nat := 0
  pendingShare : Option ShareRec := none
  result : Option (FileRec × ShareRec) := none
  deriving Repr, DecidableEq

/-- One database operation of an in-flight `getFileByShareToken` call. -/
def stepCall (files : List FileRec) (token now : Nat)
    (shares : List ShareRec) (cs : CallState) :
    List ShareRec × CallState :=
  if cs.pc = 0 then
    match resolveRead files shares token now with
    | none => (shares, { pc := 2 })
    | some (file, share) =>
      if share.one_time_use then
        (shares, { pc := 1, pendingShare := some share,
                   result := some (file, share) })
      else
        (shares, { pc := 2, result := some (file, share) })
  else if cs.pc = 1 then
    match cs.pendingShare with
    | some share => (markShareUsed shares share.id now, { cs with pc := 2 })
    | none => (shares, { cs with pc := 2 })
  else
    (shares, cs)

/-- Run two concurrent resolutions of the same token under a schedule:
`true` steps the first call, `false` the second. -/
def runTwo (files : List FileRec) (token now : Nat) (sched : List Bool)
    (shares : List ShareRec) (c1 c2 : CallState) :
    List ShareRec × CallState × CallState :=
  match sched with
  | [] => (shares, c1, c2)
  | b :: rest =>
    if b then
      let r := stepCall files token now shares c1
      runTwo files token now rest r.1 r.2 c2
    else
      let r := stepCall files token now shares c2
      runTwo files token now rest r.1 c1 r.2

/-- Looking up the flipped id after `markScanning` yields `scanning`. -/
theorem statusOf_markScanning (files : List FileRec) (fid t : Nat)
    (h : (files.find? (byId fid)).isSome = true) :
    statusOf (markScanning files fid t) fid = some FileStatus.scanning := by
  unfold statusOf
  rw [find_markScanning]
  obtain ⟨f, hf⟩ := Option.isSome_iff_exists.mp h
  rw [hf]
  rfl

/-! ### Concrete fixtures for counterexamples and witnesses -/

/-- A file that has already reached the terminal `clean` state. -/
def demoCleanFile : FileRec :=
  { id := 1, owner_id := 7, original_name := "report.pdf", storage_key := 41,
    size_bytes := 100, sha256 := some 111,
    detected_mime := some "application/pdf", status := FileStatus.clean,
    reason := none, updated_at := 10, scanned_at := some 10 }

/-- A one-row files table holding only the clean file. -/
def demoFiles : List FileRec := [demoCleanFile]

/-- A file in `scanning` state awaiting its processing job. -/
def demoScanFile : FileRec :=
  { id := 3, owner_id := 7, original_name := "video.mp4", storage_key := 43,
    size_bytes := 500, status := FileStatus.scanning, updated_at := 20 }

/-- A one-row files table holding only the scanning file. -/
def demoFiles3 : List FileRec := [demoScanFile]

/-- An environment whose blob download always throws. -/
def failEnv : ProcEnv :=
  { download := fun _ => Except.error "connection refused",
    sha256 := fun _ => 0, sniffMime := fun _ => none,
    mimeLookup := fun _ => none,
    scan := fun _ => Except.error "scanner down",
    enableFileDeduplication := false, now := 99 }

/-- An environment where the scanner reports an infection. -/
def infEnv : ProcEnv :=
  { download := fun _ => Except.ok [37, 37],
    sha256 := fun _ => 222, sniffMime := fun _ => some "application/pdf",
    mimeLookup := fun _ => none,
    scan := fun _ => Except.ok
      { isInfected := true, viruses := ["Eicar-Test-Signature"] },
    enableFileDeduplication := false, now := 99 }

/-! ### C1 -/

/-- C1 counterexample: `processFile` has no terminal-status guard. On the
file already in terminal `clean` state, re-running `process` with a failing
blob download is not a no-op: it overwrites status (to `rejected`), reason,
and `scanned_at`, refuting the claim at this concrete input. -/
theorem processFile_terminal_not_noop_cex :
    statusOf demoFiles 1 = some FileStatus.clean ∧
    scannedAtOf demoFiles 1 = some (some 10) ∧
    statusOf (processFile failEnv demoFiles 1).1 1 =
      some FileStatus.rejected ∧
    scannedAtOf (processFile failEnv demoFiles 1).1 1 = some (some 99) ∧
    reasonOf (processFile failEnv demoFiles 1).1 1 =
      some (some "Processing error: connection refused") := by
  refine ⟨rfl, rfl, ?_, ?_, ?_⟩ <;> rfl

/-- C1 (amended): re-running `process(fileId)` on a file whose status is
already terminal is not detected and not a no-op: the run re-enters the
pipeline, invokes the malware scanner again, and overwrites the row's hash
and `scanned_at` with the new attempt's results (a failing re-run even
moves the file to `rejected`, see the counterexample). -/
theorem processFile_rescans_terminal (env : ProcEnv) (files : List FileRec)
    (fid : Nat) (file : FileRec) (buf : List Nat) (sr : ScanResult)
    (hfind : files.find? (byId fid) = some file)
    (hterm : file.status = FileStatus.clean ∨
      file.status = FileStatus.quarantined ∨
      file.status = FileStatus.rejected)
    (hdl : env.download file.storage_key = Except.ok buf)
    (hnodup : ¬(env.enableFileDeduplication = true ∧
        ∃ f ∈ files, f.sha256 = some (env.sha256 buf) ∧ f.id ≠ fid ∧
          f.status = FileStatus.clean))
    (hscan : env.scan buf = Except.ok sr) :
    (processFile env files fid).2.2.scannerInvoked = true ∧
    scannedAtOf (processFile env files fid).1 fid = some (some env.now) ∧
    sha256Of (processFile env files fid).1 fid =
      some (some (env.sha256 buf)) := by
  rw [processFile_full_run env files fid file buf sr hfind hdl hnodup hscan]
  refine ⟨rfl, ?_, ?_⟩
  · unfold scannedAtOf
    dsimp only
    rw [find_updateFile_commit, find_markScanning, hfind]
    rfl
  · unfold sha256Of
    dsimp only
    rw [find_updateFile_commit, find_markScanning, hfind]
    rfl

/-- C1 witness: the amended theorem applied to the clean demo file and the
infected-scan environment. -/
theorem processFile_rescans_terminal_witness :
    (processFile infEnv demoFiles 1).2.2.scannerInvoked = true ∧
    scannedAtOf (processFile infEnv demoFiles 1).1 1 = some (some 99) ∧
    sha256Of (processFile infEnv demoFiles 1).1 1 = some (some 222) :=
  processFile_rescans_terminal infEnv demoFiles 1 demoCleanFile [37, 37]
    { isInfected := true, viruses := ["Eicar-Test-Signature"] }
    rfl (Or.inl rfl) rfl
    (by rintro ⟨h, -⟩; exact Bool.false_ne_true h) rfl

/-! ### C5 -/

/-- C5: for a processed file that is not a dedup short-circuit, the scanner
verdict is checked first: an infected file is quarantined with a
"Virus detected" reason listing the signatures even when its MIME type is
also denylisted; a clean-scanned file with a denylisted detected MIME type
is quarantined with a dangerous-type reason; otherwise the file is clean
with no reason and the detected MIME is committed. -/
theorem classification_spec (env : ProcEnv) (files : List FileRec)
    (fid : Nat) (file : FileRec) (buf : List Nat) (sr : ScanResult)
    (dm : String)
    (hfind : files.find? (byId fid) = some file)
    (hdl : env.download file.storage_key = Except.ok buf)
    (hnodup : ¬(env.enableFileDeduplication = true ∧
        ∃ f ∈ files, f.sha256 = some (env.sha256 buf) ∧ f.id ≠ fid ∧
          f.status = FileStatus.clean))
    (hscan : env.scan buf = Except.ok sr)
    (hdm : dm = detectMime (env.sniffMime buf)
      (env.mimeLookup file.original_name)) :
    (sr.isInfected = true →
       statusOf (processFile env files fid).1 fid =
         some FileStatus.quarantined ∧
       reasonOf (processFile env files fid).1 fid =
         some (some ("Virus detected: " ++ joinComma sr.viruses))) ∧
    (sr.isInfected = false → dm ∈ dangerousFileTypes →
       statusOf (processFile env files fid).1 fid =
         some FileStatus.quarantined ∧
       reasonOf (processFile env files fid).1 fid =
         some (some ("Potentially dangerous file type detected: " ++ dm))) ∧
    (sr.isInfected = false → dm ∉ dangerousFileTypes →
       statusOf (processFile env files fid).1 fid = some FileStatus.clean ∧
       reasonOf (processFile env files fid).1 fid = some none ∧
       mimeOf (processFile env files fid).1 fid = some (some dm)) := by
  subst hdm
  rw [processFile_full_run env files fid file buf sr hfind hdl hnodup hscan]
  refine ⟨fun hinf => ⟨?_, ?_⟩, fun hninf hmem => ⟨?_, ?_⟩,
    fun hninf hnmem => ⟨?_, ?_, ?_⟩⟩ <;>
    · first
      | (unfold statusOf
         dsimp only
         rw [find_updateFile_commit, find_markScanning, hfind]
         simp [commitUpdate, classify, *])
      | (unfold reasonOf
         dsimp only
         rw [find_updateFile_commit, find_markScanning, hfind]
         simp [commitUpdate, classify, *])
      | (unfold mimeOf
         dsimp only
         rw [find_updateFile_commit, find_markScanning, hfind]
         simp [commitUpdate, classify, *])

/-- C5 witness: the infected branch at the scanning demo file. -/
theorem classification_spec_witness :
    statusOf (processFile infEnv demoFiles3 3).1 3 =
      some FileStatus.quarantined ∧
    reasonOf (processFile infEnv demoFiles3 3).1 3 =
      some (some "Virus detected: Eicar-Test-Signature") :=
  (classification_spec infEnv demoFiles3 3 demoScanFile [37, 37]
      { isInfected := true, viruses := ["Eicar-Test-Signature"] }
      "application/pdf" rfl rfl
      (by rintro ⟨h, -⟩; exact absurd h (by decide)) rfl rfl).1 rfl

/-! ### C6 -/

/-- An environment with deduplication enabled whose hash matches the clean
demo file's stored hash; its scanner refuses to run. -/
def dedupEnv : ProcEnv :=
  { download := fun _ => Except.ok [1, 2, 3],
    sha256 := fun _ => 111, sniffMime := fun _ => none,
    mimeLookup := fun _ => none,
    scan := fun _ => Except.error "scanner should not be invoked",
    enableFileDeduplication := true, now := 77 }

/-- C6: with deduplication enabled and another clean file (any owner,
different id) carrying the same content hash, `process` short-circuits:
it commits only hash, status `clean` and scan timestamp for the current
file, leaves its detected MIME and reason untouched, succeeds, and invokes
neither MIME sniffing, nor the malware scanner, nor derivative
generation. -/
theorem dedup_short_circuit (env : ProcEnv) (files : List FileRec)
    (fid : Nat) (file : FileRec) (buf : List Nat)
    (hfind : files.find? (byId fid) = some file)
    (hdl : env.download file.storage_key = Except.ok buf)
    (hen : env.enableFileDeduplication = true)
    (hdup : ∃ f ∈ files, f.sha256 = some (env.sha256 buf) ∧ f.id ≠ fid ∧
        f.status = FileStatus.clean) :
    (processFile env files fid).2.1 = Except.ok () ∧
    (processFile env files fid).2.2.sniffInvoked = false ∧
    (processFile env files fid).2.2.scannerInvoked = false ∧
    (processFile env files fid).2.2.thumbnailAttempted = false ∧
    statusOf (processFile env files fid).1 fid = some FileStatus.clean ∧
    sha256Of (processFile env files fid).1 fid =
      some (some (env.sha256 buf)) ∧
    scannedAtOf (processFile env files fid).1 fid = some (some env.now) ∧
    mimeOf (processFile env files fid).1 fid = some file.detected_mime ∧
    reasonOf (processFile env files fid).1 fid = some file.reason := by
  rw [processFile_dedup_run env files fid file buf hfind hdl hen hdup]
  refine ⟨rfl, rfl, rfl, rfl, ?_, ?_, ?_, ?_, ?_⟩ <;>
    · first
      | (unfold statusOf
         dsimp only
         rw [find_updateFile_dedup, find_markScanning, hfind]
         rfl)
      | (unfold sha256Of
         dsimp only
         rw [find_updateFile_dedup, find_markScanning, hfind]
         rfl)
      | (unfold scannedAtOf
         dsimp only
         rw [find_updateFile_dedup, find_markScanning, hfind]
         rfl)
      | (unfold mimeOf
         dsimp only
         rw [find_updateFile_dedup, find_markScanning, hfind]
         rfl)
      | (unfold reasonOf
         dsimp only
         rw [find_updateFile_dedup, find_markScanning, hfind]
         rfl)

/-- C6 witness: the second upload of already-vetted content converges to
`clean` without scanning. -/
theorem dedup_short_circuit_witness :
    (processFile dedupEnv [demoCleanFile, demoScanFile] 3).2.1 =
      Except.ok () ∧
    (processFile dedupEnv [demoCleanFile, demoScanFile] 3).2.2.sniffInvoked =
      false ∧
    (processFile dedupEnv
        [demoCleanFile, demoScanFile] 3).2.2.scannerInvoked = false ∧
    (processFile dedupEnv
        [demoCleanFile, demoScanFile] 3).2.2.thumbnailAttempted = false ∧
    statusOf (processFile dedupEnv [demoCleanFile, demoScanFile] 3).1 3 =
      some FileStatus.clean ∧
    sha256Of (processFile dedupEnv [demoCleanFile, demoScanFile] 3).1 3 =
      some (some 111) ∧
    scannedAtOf (processFile dedupEnv [demoCleanFile, demoScanFile] 3).1 3 =
      some (some 77) ∧
    mimeOf (processFile dedupEnv [demoCleanFile, demoScanFile] 3).1 3 =
      some none ∧
    reasonOf (processFile dedupEnv [demoCleanFile, demoScanFile] 3).1 3 =
      some none :=
  dedup_short_circuit dedupEnv [demoCleanFile, demoScanFile] 3 demoScanFile
    [1, 2, 3] rfl rfl rfl
    ⟨demoCleanFile, by decide, by decide, by decide, by decide⟩

/-! ### C2 -/

/-- Any successful `processBody` leaves the looked-up row in `clean` or
`quarantined` state (dedup path or classification commit). -/
theorem processBody_ok_status (env : ProcEnv) (files1 : List FileRec)
    (fid : Nat) (f1 : FileRec) (files2 : List FileRec) (eff : Effects)
    (hfind1 : files1.find? (byId fid) = some f1)
    (hbody : processBody env files1 fid = Except.ok (files2, eff)) :
    statusOf files2 fid = some FileStatus.clean ∨
    statusOf files2 fid = some FileStatus.quarantined := by
  unfold processBody at hbody
  rw [hfind1] at hbody
  dsimp only at hbody
  cases hdl : env.download f1.storage_key with
  | error e =>
    rw [hdl] at hbody
    dsimp only at hbody
    exact absurd hbody (by simp)
  | ok buf =>
    rw [hdl] at hbody
    dsimp only at hbody
    by_cases hc : env.enableFileDeduplication = true ∧
        ∃ f ∈ files1, f.sha256 = some (env.sha256 buf) ∧ f.id ≠ fid ∧
          f.status = FileStatus.clean
    · rw [if_pos hc] at hbody
      simp only [Except.ok.injEq, Prod.mk.injEq] at hbody
      left
      rw [← hbody.1]
      unfold statusOf
      rw [find_updateFile_dedup, hfind1]
      rfl
    · rw [if_neg hc] at hbody
      cases hscan : env.scan buf with
      | error e =>
        rw [hscan] at hbody
        dsimp only at hbody
        exact absurd hbody (by simp)
      | ok sr =>
        rw [hscan] at hbody
        dsimp only at hbody
        simp only [Except.ok.injEq, Prod.mk.injEq] at hbody
        rw [← hbody.1]
        unfold statusOf
        rw [find_updateFile_commit, hfind1]
        unfold classify
        by_cases hinf : sr.isInfected = true
        · right
          simp [commitUpdate, hinf]
        · by_cases hmem : detectMime (env.sniffMime buf)
              (env.mimeLookup f1.original_name) ∈ dangerousFileTypes
          · right
            simp [commitUpdate, hinf, hmem]
          · left
            simp [commitUpdate, hinf, hmem]

/-- C2 counterexample: the automated pipeline overwrites a terminal
status. The demo file is already terminal `clean`, yet a re-delivered
processing job with an infected scan result rewrites it to
`quarantined`. -/
theorem terminal_reentry_cex :
    statusOf demoFiles 1 = some FileStatus.clean ∧
    statusOf (processFile infEnv demoFiles 1).1 1 =
      some FileStatus.quarantined := by
  exact ⟨rfl, rfl⟩

/-- C2 (amended): no operation re-enters `pending`: `completeFileUpload`
always leaves the addressed file in `scanning`, and a `processFile` run
always leaves an existing file in a terminal state (`clean`,
`quarantined`, or `rejected`). However neither operation guards on the
current status, so `scanning` can be re-entered from a terminal state via
`completeFileUpload` and terminal states can be overwritten by the
pipeline (see the counterexample). -/
theorem pipeline_status_transitions (env : ProcEnv) (files : List FileRec)
    (jobs : List JobRec) (fid userId now : Nat)
    (h : (files.find? (byId fid)).isSome = true) :
    (∀ out, completeFileUpload files jobs fid userId now = Except.ok out →
       statusOf out.1 fid = some FileStatus.scanning) ∧
    (statusOf (processFile env files fid).1 fid = some FileStatus.clean ∨
     statusOf (processFile env files fid).1 fid =
       some FileStatus.quarantined ∨
     statusOf (processFile env files fid).1 fid =
       some FileStatus.rejected) := by
  obtain ⟨f0, hf0⟩ := Option.isSome_iff_exists.mp h
  have hfind1 : (markScanning files fid env.now).find? (byId fid) =
      some { f0 with status := FileStatus.scanning, updated_at := env.now } := by
    rw [find_markScanning, hf0]
    rfl
  constructor
  · intro out hout
    unfold completeFileUpload at hout
    cases hcf : files.find? (fun f =>
        decide (f.id = fid ∧ f.owner_id = userId)) with
    | none =>
      rw [hcf] at hout
      exact absurd hout (by simp)
    | some file =>
      rw [hcf] at hout
      simp only [Except.ok.injEq] at hout
      rw [← hout]
      exact statusOf_markScanning files fid now h
  · cases hbody : processBody env (markScanning files fid env.now) fid with
    | error e =>
      have hres : (processFile env files fid).1 =
          updateFile (markScanning files fid env.now) fid
            (rejectUpdate e env.now) := by
        simp only [processFile, hbody]
      right; right
      rw [hres]
      unfold statusOf
      rw [find_updateFile_reject, hfind1]
      rfl
    | ok p =>
      obtain ⟨files2, eff⟩ := p
      have hres : (processFile env files fid).1 = files2 := by
        simp only [processFile, hbody]
      rw [hres]
      rcases processBody_ok_status env (markScanning files fid env.now) fid
          _ files2 eff hfind1 hbody with hcl | hq
      · exact Or.inl hcl
      · exact Or.inr (Or.inl hq)

/-- C2 witness: the amended theorem's pipeline part at the demo file. -/
theorem pipeline_status_transitions_witness :
    statusOf (processFile infEnv demoFiles 1).1 1 = some FileStatus.clean ∨
    statusOf (processFile infEnv demoFiles 1).1 1 =
      some FileStatus.quarantined ∨
    statusOf (processFile infEnv demoFiles 1).1 1 =
      some FileStatus.rejected :=
  (pipeline_status_transitions infEnv demoFiles [] 1 7 50 (by decide)).2

/-! ### C3 -/

/-- C3 counterexample: blob download throws on every attempt. Already
after the first attempt — with two retry attempts still remaining (the
trace records three attempts in total) — the file's status is `rejected`,
refuting "while retry attempts remain, a failed processing attempt never
moves the file to rejected". -/
theorem reject_before_exhaustion_cex :
    ((runJobAttempts [failEnv, failEnv, failEnv] demoFiles3 3).1.head?.map
      (fun st => statusOf st 3)) = some (some FileStatus.rejected) ∧
    (runJobAttempts [failEnv, failEnv, failEnv] demoFiles3 3).1.length = 3 ∧
    (runJobAttempts [failEnv, failEnv, failEnv] demoFiles3 3).2 = false := by
  exact ⟨rfl, rfl, rfl⟩

/-- C3 (amended): every failed processing attempt immediately sets the
file's status to `rejected` with a reason prefixed "Processing error:" —
already after the first failure, not only after the attempt budget is
exhausted; when every attempt fails, the job never succeeds and the file
ends (and stays) `rejected` with that prefix. -/
theorem failed_attempts_reject_immediately (envs : List ProcEnv)
    (files : List FileRec) (fid : Nat) (file : FileRec)
    (hfind : files.find? (byId fid) = some file)
    (hfail : ∀ env ∈ envs, ∀ k, ∃ e, env.download k = Except.error e) :
    (runJobAttempts envs files fid).2 = false ∧
    (runJobAttempts envs files fid).1.length = envs.length ∧
    (∀ st ∈ (runJobAttempts envs files fid).1,
       statusOf st fid = some FileStatus.rejected ∧
       ∃ e, reasonOf st fid =
         some (some ("Processing error: " ++ e))) ∧
    (envs ≠ [] →
       ((runJobAttempts envs files fid).1.head?.map
         (fun st => statusOf st fid)) =
           some (some FileStatus.rejected)) := by
  induction envs generalizing files file with
  | nil =>
    refine ⟨rfl, rfl, ?_, ?_⟩
    · intro st hst
      simp [runJobAttempts] at hst
    · intro hne
      exact absurd rfl hne
  | cons env rest ih =>
    obtain ⟨e, he⟩ := hfail env (List.mem_cons_self env rest) file.storage_key
    have hrun := processFile_download_error env files fid file e hfind he
    have hfind2 : (updateFile (markScanning files fid env.now) fid
        (rejectUpdate e env.now)).find? (byId fid) =
          some (rejectUpdate e env.now
            { file with status := FileStatus.scanning,
                        updated_at := env.now }) := by
      rw [find_updateFile_reject, find_markScanning, hfind]
      rfl
    have hstat : statusOf (updateFile (markScanning files fid env.now) fid
        (rejectUpdate e env.now)) fid = some FileStatus.rejected := by
      unfold statusOf
      rw [hfind2]
      rfl
    have hreas : reasonOf (updateFile (markScanning files fid env.now) fid
        (rejectUpdate e env.now)) fid =
          some (some ("Processing error: " ++ e)) := by
      unfold reasonOf
      rw [hfind2]
      rfl
    have hstep : runJobAttempts (env :: rest) files fid =
        (updateFile (markScanning files fid env.now) fid
           (rejectUpdate e env.now) ::
         (runJobAttempts rest (updateFile (markScanning files fid env.now)
           fid (rejectUpdate e env.now)) fid).1,
         (runJobAttempts rest (updateFile (markScanning files fid env.now)
           fid (rejectUpdate e env.now)) fid).2) := by
      simp only [runJobAttempts, hrun]
    obtain ⟨ih1, ih2, ih3, -⟩ := ih
      (updateFile (markScanning files fid env.now) fid
        (rejectUpdate e env.now))
      (rejectUpdate e env.now
        { file with status := FileStatus.scanning, updated_at := env.now })
      hfind2
      (fun env2 h2 k => hfail env2 (List.mem_cons_of_mem env h2) k)
    rw [hstep]
    refine ⟨ih1, ?_, ?_, ?_⟩
    · simp [ih2]
    · intro st hst
      rcases List.mem_cons.mp hst with hst1 | hst2
      · rw [hst1]
        exact ⟨hstat, e, hreas⟩
      · exact ih3 st hst2
    · intro hne
      simp [hstat]

/-- C3 witness: the amended theorem at three failing attempts on the
scanning demo file. -/
theorem failed_attempts_reject_immediately_witness :
    (runJobAttempts [failEnv, failEnv, failEnv] demoFiles3 3).2 = false ∧
    (runJobAttempts [failEnv, failEnv, failEnv] demoFiles3 3).1.length = 3 ∧
    ((runJobAttempts [failEnv, failEnv, failEnv] demoFiles3 3).1.head?.map
      (fun st => statusOf st 3)) = some (some FileStatus.rejected) := by
  obtain ⟨h1, h2, -, h4⟩ := failed_attempts_reject_immediately
    [failEnv, failEnv, failEnv] demoFiles3 3 demoScanFile rfl
    (by
      intro env henv k
      simp at henv
      subst henv
      exact ⟨"connection refused", rfl⟩)
  exact ⟨h1, h2, h4 (by simp)⟩

/-! ### C4 -/

/-- C4 counterexample: `completeFileUpload` performs no `pending` check.
Called on a file already in terminal `clean` state it succeeds — flipping
the file back to `scanning` and enqueuing a job — instead of failing with
NotFound and leaving the file unchanged. -/
theorem complete_on_clean_succeeds_cex :
    demoCleanFile.status = FileStatus.clean ∧
    completeFileUpload demoFiles [] 1 7 50 =
      Except.ok (markScanning demoFiles 1 50,
        [{ fileId := 1, attempts := 3 }], demoCleanFile) ∧
    statusOf (markScanning demoFiles 1 50) 1 = some FileStatus.scanning := by
  exact ⟨rfl, rfl, rfl⟩

/-- C4 (amended): `complete(fileId, user)` fails with NotFound exactly
when no file with that id is owned by the user — the file's status is not
consulted. On any owned file, whatever its status, it succeeds: the file
is flipped to `scanning` and exactly one job is enqueued. -/
theorem completeFileUpload_ignores_pending (files : List FileRec)
    (jobs : List JobRec) (fileId userId now : Nat) :
    ((∀ f ∈ files, ¬(f.id = fileId ∧ f.owner_id = userId)) →
       completeFileUpload files jobs fileId userId now =
         Except.error "File not found or not owned by user") ∧
    (∀ file, files.find? (fun f =>
        decide (f.id = fileId ∧ f.owner_id = userId)) = some file →
       completeFileUpload files jobs fileId userId now =
         Except.ok (markScanning files fileId now,
           jobs ++ [({ fileId := fileId, attempts := 3 } : JobRec)], file) ∧
       statusOf (markScanning files fileId now) fileId =
         some FileStatus.scanning ∧
       (jobs ++ [({ fileId := fileId, attempts := 3 } : JobRec)]).length =
         jobs.length + 1) := by
  constructor
  · intro hnone
    unfold completeFileUpload
    rw [List.find?_eq_none.mpr (fun f hf => by
      simp only [decide_eq_true_eq]
      exact hnone f hf)]
  · intro file hf
    have hbyId : (files.find? (byId fileId)).isSome = true := by
      apply List.find?_isSome.mpr
      refine ⟨file, List.mem_of_find?_eq_some hf, ?_⟩
      have hp := List.find?_some hf
      simp only [decide_eq_true_eq] at hp
      simp [byId, hp.1]
    unfold completeFileUpload
    rw [hf]
    exact ⟨rfl, statusOf_markScanning files fileId now hbyId, by simp⟩

/-- C4 witness: the amended theorem's success branch at the clean demo
file. -/
theorem completeFileUpload_ignores_pending_witness :
    completeFileUpload demoFiles [] 1 7 50 =
      Except.ok (markScanning demoFiles 1 50,
        [({ fileId := 1, attempts := 3 } : JobRec)], demoCleanFile) ∧
    statusOf (markScanning demoFiles 1 50) 1 = some FileStatus.scanning ∧
    (([] : List JobRec) ++ [({ fileId := 1, attempts := 3 } : JobRec)]).length =
      ([] : List JobRec).length + 1 :=
  (completeFileUpload_ignores_pending demoFiles [] 1 7 50).2
    demoCleanFile rfl

/-! ### C7 -/

/-- C7: given the size cap passes and the user exists, `initiate` denies
admission exactly when `used + incoming > storageQuota` or
`activeFileCount + 1 > filesQuota`, both computed over the user's
non-rejected files. -/
theorem initiate_quota_check (users : List UserRec) (files : List FileRec)
    (userId : Nat) (fileName : String) (fileSize : Nat)
    (maxFileSize newId newKey now : Nat) (user : UserRec)
    (hsz : fileSize ≤ maxFileSize)
    (huser : users.find? (fun u => u.id == userId) = some user) :
    (∃ e, initiateFileUpload users files userId fileName fileSize
        maxFileSize newId newKey now = Except.error e) ↔
      (user.storage_quota_bytes < usedStorage files userId + fileSize ∨
       user.files_quota < activeFileCount files userId + 1) := by
  unfold initiateFileUpload
  rw [if_neg (by omega), huser]
  dsimp only
  by_cases hs : usedStorage files userId + fileSize > user.storage_quota_bytes
  · rw [if_pos hs]
    exact ⟨fun _ => Or.inl hs, fun _ => ⟨"Storage quota exceeded", rfl⟩⟩
  · rw [if_neg hs]
    by_cases hc : user.files_quota ≤ activeFileCount files userId
    · rw [if_pos hc]
      exact ⟨fun _ => Or.inr (by omega), fun _ =>
        ⟨"Files quota exceeded", rfl⟩⟩
    · rw [if_neg hc]
      constructor
      · rintro ⟨e, he⟩
        exact absurd he (by simp)
      · intro hor
        rcases hor with h1 | h2
        · exact absurd h1 (by omega)
        · exact absurd h2 (by omega)

/-- A user with 1000 bytes of storage quota and a large file-count
quota. -/
def quotaUser : UserRec :=
  { id := 7, storage_quota_bytes := 1000, files_quota := 100 }

/-- C7 witness: with `storageQuota = 1000` and 900 bytes used (the files
table holds one non-rejected 900-byte file plus a rejected one that does
not count), a declared size of 200 is denied and a declared size of 50 is
admitted. -/
theorem initiate_quota_check_witness :
    (∃ e, initiateFileUpload [quotaUser]
        [{ id := 1, owner_id := 7, original_name := "big.bin",
           storage_key := 41, size_bytes := 900,
           status := FileStatus.clean },
         { id := 2, owner_id := 7, original_name := "bad.bin",
           storage_key := 42, size_bytes := 5000,
           status := FileStatus.rejected }]
        7 "new.bin" 200 104857600 9 99 50 = Except.error e) ∧
    ¬(∃ e, initiateFileUpload [quotaUser]
        [{ id := 1, owner_id := 7, original_name := "big.bin",
           storage_key := 41, size_bytes := 900,
           status := FileStatus.clean },
         { id := 2, owner_id := 7, original_name := "bad.bin",
           storage_key := 42, size_bytes := 5000,
           status := FileStatus.rejected }]
        7 "new.bin" 50 104857600 9 99 50 = Except.error e) := by
  constructor
  · exact (initiate_quota_check [quotaUser] _ 7 "new.bin" 200 104857600
      9 99 50 quotaUser (by decide) rfl).mpr (Or.inl (by decide))
  · intro hex
    rcases (initiate_quota_check [quotaUser] _ 7 "new.bin" 50 104857600
      9 99 50 quotaUser (by decide) rfl).mp hex with h | h
    · exact absurd h (by decide)
    · exact absurd h (by decide)

/-! ### C8 -/

/-- The users table for the share counterexample: the file owner and an
unrelated administrator. -/
def demoUsers : List UserRec :=
  [ { id := 7, storage_quota_bytes := 1000, files_quota := 100 },
    { id := 2, storage_quota_bytes := 1000, files_quota := 100,
      role := Role.admin } ]

/-- C8 counterexample: an administrator who does not own the clean demo
file is denied by `createFileShare` — the access check is invoked with
ownership required, which skips the admin branch — refuting "unless the
issuer owns the file or is an administrator". -/
theorem admin_share_denied_cex :
    ((demoUsers.find? (fun u => u.id == 2)).map (fun u => u.role)) =
      some Role.admin ∧
    demoCleanFile.status = FileStatus.clean ∧
    createFileShare demoUsers demoFiles [] 1 2 15 false 50 100 555 =
      Except.error "File not found or access denied" := by
  exact ⟨rfl, rfl, rfl⟩

/-- C8 (amended): `createShare` fails with AccessDenied unless the issuer
owns the file — being an administrator confers no exception, because the
access check runs with ownership required and then skips its admin
branch. For an owned file it fails with InvalidState unless the status is
`clean`, and on success it inserts a share row expiring
`ttlMinutes` after now with the requested one-time flag and no consumed
timestamp. -/
theorem createFileShare_owner_only (users : List UserRec)
    (files : List FileRec) (shares : List ShareRec)
    (fileId userId expiresInMinutes : Nat) (oneTimeUse : Bool)
    (now newShareId token : Nat) :
    ((∀ f ∈ files, f.id = fileId → f.owner_id ≠ userId) →
       createFileShare users files shares fileId userId expiresInMinutes
         oneTimeUse now newShareId token =
           Except.error "File not found or access denied") ∧
    (∀ file, files.find? (byId fileId) = some file →
       file.owner_id = userId →
       (file.status = FileStatus.clean →
          createFileShare users files shares fileId userId expiresInMinutes
            oneTimeUse now newShareId token =
              Except.ok (shares ++
                [({ id := newShareId, file_id := fileId,
                    created_by := userId, share_token := token,
                    expires_at := now + expiresInMinutes,
                    one_time_use := oneTimeUse,
                    used_at := none } : ShareRec)], token)) ∧
       (file.status ≠ FileStatus.clean →
          createFileShare users files shares fileId userId expiresInMinutes
            oneTimeUse now newShareId token =
              Except.error ("Cannot share file with status: " ++
                statusName file.status))) := by
  constructor
  · intro hnoown
    have hacc : canAccessFile users files fileId userId true = false := by
      unfold canAccessFile
      simp only [Bool.or_eq_false_iff]
      refine ⟨by simp, ?_⟩
      apply List.any_eq_false.mpr
      intro f hf
      simp only [decide_eq_true_eq, not_and]
      intro hfid
      exact hnoown f hf hfid
    unfold createFileShare
    rw [if_pos hacc]
  · intro file hfind hown
    have hmem := List.mem_of_find?_eq_some hfind
    have hid : file.id = fileId := by
      have hp := List.find?_some hfind
      simpa [byId] using hp
    have hacc : canAccessFile users files fileId userId true = true := by
      unfold canAccessFile
      apply Bool.or_eq_true_iff.mpr
      right
      apply List.any_eq_true.mpr
      exact ⟨file, hmem, by simp [hid, hown]⟩
    constructor
    · intro hclean
      unfold createFileShare
      rw [if_neg (by simp [hacc]), hfind]
      dsimp only
      rw [if_neg (by simp [hclean])]
    · intro hnclean
      unfold createFileShare
      rw [if_neg (by simp [hacc]), hfind]
      dsimp only
      rw [if_pos hnclean]

/-- C8 witness: the owner of the clean demo file obtains a share expiring
15 minutes after now. -/
theorem createFileShare_owner_only_witness :
    createFileShare demoUsers demoFiles [] 1 7 15 false 50 100 555 =
      Except.ok ([({ id := 100, file_id := 1, created_by := 7,
                     share_token := 555, expires_at := 65,
                     one_time_use := false,
                     used_at := none } : ShareRec)], 555) :=
  ((createFileShare_owner_only demoUsers demoFiles [] 1 7 15 false
      50 100 555).2 demoCleanFile rfl rfl).1 rfl

/-! ### C9 -/

/-- A valid, not yet consumed one-time share for the clean demo file. -/
def oneTimeShare : ShareRec :=
  { id := 10, file_id := 1, created_by := 7, share_token := 555,
    expires_at := 100, one_time_use := true, used_at := none }

/-- C9 counterexample: under the interleaving read-1, read-2, mark-1,
mark-2 both concurrent resolutions of the same one-time token complete and
both succeed, refuting "exactly one succeeds and the other returns
NotFound". The consumed-marking is a separate unconditional UPDATE after
the returning SELECT, not an atomic conditional update. -/
theorem oneTime_double_resolution_cex :
    ((runTwo demoFiles 555 5 [true, false, true, false]
        [oneTimeShare] {} {}).2.1.result).isSome = true ∧
    ((runTwo demoFiles 555 5 [true, false, true, false]
        [oneTimeShare] {} {}).2.2.result).isSome = true ∧
    (runTwo demoFiles 555 5 [true, false, true, false]
        [oneTimeShare] {} {}).2.1.pc = 2 ∧
    (runTwo demoFiles 555 5 [true, false, true, false]
        [oneTimeShare] {} {}).2.2.pc = 2 := by
  exact ⟨rfl, rfl, rfl, rfl⟩

/-- C9 (amended): the one-time marking is a separate, unconditional
update issued after the returning read, so it is not atomic: when the two
resolutions run sequentially (the schedule where the first call finishes
before the second starts) exactly one succeeds and the other returns
NotFound, but an interleaving of the two calls can make both succeed (see
the counterexample). -/
theorem resolveShare_sequential_once (files : List FileRec)
    (shares : List ShareRec) (token now : Nat) (s : ShareRec)
    (file : FileRec)
    (hread : shares.find? (fun s2 =>
        decide (s2.share_token = token ∧ now < s2.expires_at ∧
          (s2.one_time_use = false ∨ s2.used_at = none))) = some s)
    (hone : s.one_time_use = true)
    (hfile : files.find? (fun f =>
        decide (f.id = s.file_id ∧ f.status = FileStatus.clean)) =
          some file)
    (huniq : ∀ s2 ∈ shares, s2.share_token = token → s2 = s) :
    (runTwo files token now [true, true, false, false]
        shares {} {}).2.1.result = some (file, s) ∧
    (runTwo files token now [true, true, false, false]
        shares {} {}).2.2.result = none := by
  have hres : resolveRead files shares token now = some (file, s) := by
    unfold resolveRead
    rw [hread]
    dsimp only
    rw [hfile]
  have h1 : stepCall files token now shares {} =
      (shares, { pc := 1, pendingShare := some s,
                 result := some (file, s) }) := by
    unfold stepCall
    rw [if_pos rfl, hres]
    dsimp only
    rw [if_pos hone]
  have h2 : stepCall files token now shares
      ({ pc := 1, pendingShare := some s,
         result := some (file, s) } : CallState) =
        (markShareUsed shares s.id now,
         { pc := 2, pendingShare := some s,
           result := some (file, s) }) := by
    unfold stepCall
    rw [if_neg (by simp), if_pos rfl]
  have hfn : (markShareUsed shares s.id now).find? (fun s2 =>
      decide (s2.share_token = token ∧ now < s2.expires_at ∧
        (s2.one_time_use = false ∨ s2.used_at = none))) = none := by
    apply List.find?_eq_none.mpr
    intro u hu
    unfold markShareUsed at hu
    obtain ⟨s2, hs2, hus2⟩ := List.mem_map.mp hu
    simp only [decide_eq_true_eq, not_and]
    intro htok
    have hs2tok : s2.share_token = token := by
      by_cases hid : s2.id = s.id
      · rw [← htok, ← hus2]
        simp [hid]
      · rw [← htok, ← hus2]
        simp [hid]
    have hs2s : s2 = s := huniq s2 hs2 hs2tok
    have hu2 : u = { s with used_at := some now } := by
      rw [← hus2, hs2s]
      simp
    rw [hu2]
    intro hlt hval
    rcases hval with hval | hval
    · exact absurd hval (by simp [hone])
    · exact absurd hval (by simp)
  have hnone : resolveRead files (markShareUsed shares s.id now)
      token now = none := by
    unfold resolveRead
    rw [hfn]
  have h3 : stepCall files token now (markShareUsed shares s.id now)
      ({} : CallState) =
        (markShareUsed shares s.id now, { pc := 2 }) := by
    unfold stepCall
    rw [if_pos rfl, hnone]
  have h4 : stepCall files token now (markShareUsed shares s.id now)
      ({ pc := 2 } : CallState) =
        (markShareUsed shares s.id now, { pc := 2 }) := by
    unfold stepCall
    rw [if_neg (by simp), if_neg (by simp)]
  have hrun : runTwo files token now [true, true, false, false]
      shares {} {} =
        (markShareUsed shares s.id now,
         { pc := 2, pendingShare := some s, result := some (file, s) },
         { pc := 2 }) := by
    simp [runTwo, h1, h2, h3, h4]
  rw [hrun]
  exact ⟨rfl, rfl⟩

/-- C9 witness: the sequential schedule on the demo one-time share yields
one success and one NotFound. -/
theorem resolveShare_sequential_once_witness :
    (runTwo demoFiles 555 5 [true, true, false, false]
        [oneTimeShare] {} {}).2.1.result =
      some (demoCleanFile, oneTimeShare) ∧
    (runTwo demoFiles 555 5 [true, true, false, false]
        [oneTimeShare] {} {}).2.2.result = none :=
  resolveShare_sequential_once demoFiles [oneTimeShare] 555 5
    oneTimeShare demoCleanFile rfl rfl rfl (by decide)

/-! ### C10 -/

/-- C10: in `generateFileDownloadUrl` the non-owner access check only
asks whether ANY `file_shares` row for the file is unexpired — it reads
neither the share token, nor the caller's identity, nor the one-time-use
and consumed state — so for a `clean` file with at least one unexpired
share, every authenticated user obtains the download URL. -/
theorem downloadUrl_any_user_with_unexpired_share (files : List FileRec)
    (shares : List ShareRec) (fileId now : Nat) (file : FileRec)
    (hfind : files.find? (byId fileId) = some file)
    (hclean : file.status = FileStatus.clean)
    (hshare : ∃ s ∈ shares, s.file_id = fileId ∧ now < s.expires_at) :
    ∀ userId, generateFileDownloadUrl files shares fileId userId now =
      Except.ok file := by
  intro userId
  unfold generateFileDownloadUrl
  have hp : (fun f : FileRec => decide (f.id = fileId ∧
      (f.owner_id = userId ∨
        ∃ s ∈ shares, s.file_id = fileId ∧ now < s.expires_at))) =
          byId fileId := by
    funext f
    exact decide_eq_decide.mpr ⟨fun h => h.1, fun h => ⟨h, Or.inr hshare⟩⟩
  rw [hp, hfind]
  dsimp only
  rw [if_neg (by simp [hclean])]

/-- A consumed one-time share whose expiry is still in the future. -/
def consumedShare : ShareRec :=
  { id := 11, file_id := 1, created_by := 7, share_token := 556,
    expires_at := 100, one_time_use := true, used_at := some 3 }

/-- C10 witness: a stranger (user 99, not the owner) gets a download URL
for the clean demo file because an already-consumed one-time share row is
still unexpired. -/
theorem downloadUrl_any_user_with_unexpired_share_witness :
    generateFileDownloadUrl demoFiles [consumedShare] 1 99 5 =
      Except.ok demoCleanFile :=
  downloadUrl_any_user_with_unexpired_share demoFiles [consumedShare] 1 5
    demoCleanFile rfl rfl (by decide) 99

end WebUpload
